import Mathlib

/-!
# Verification of the three-d GPU resource / render-target core

Shallow embedding of the texture, render-target, camera-control and COLLADA
material-loading code of the repository, together with theorems settling the
specification claims.  Pure data is translated directly; GPU side effects
(face uploads, mip-map regeneration, framebuffer binding) are made explicit
as fields of the state records; fallible Rust functions returning
`ThreeDResult` become functions returning the mutated state paired with an
`Except` result, mirroring the fact that a Rust `&mut self` method leaves its
receiver in whatever state it reached when it returned.
-/

namespace ThreeD

/-- Pixel format (channel count); mirrors the `Format` enum used by
`CPUTexture` / `TextureCubeMap`. -/
inductive Format where
  | R
  | RG
  | RGB
  | RGBA
deriving DecidableEq, Repr

/-- Number of color channels of a format (`channels_for` in the spec). -/
def Format.channels : Format → Nat
  | .R => 1
  | .RG => 2
  | .RGB => 3
  | .RGBA => 4

/-- Texture interpolation (filter) mode. -/
inductive Interpolation where
  | Nearest
  | Linear
deriving DecidableEq, Repr

/-- Texture wrapping mode. -/
inductive Wrapping where
  | Repeat
  | MirroredRepeat
  | ClampToEdge
deriving DecidableEq, Repr

/-- Errors produced by the core (spec §7 taxonomy, restricted to the cases
the embedded code can raise). -/
inductive CoreError where
  | SizeMismatch (expected found : Nat)
  | InvalidFormat
deriving DecidableEq, Repr

/-- `u32::is_power_of_two` / the spec's "power of two" test, as an executable
boolean: `n` is a power of two iff some `k ≤ n` has `n = 2 ^ k`
(every power of two `2 ^ k` satisfies `k < 2 ^ k`, so the bound is complete). -/
def isPowTwo (n : Nat) : Bool :=
  (List.range (n + 1)).any (fun k => n == 2 ^ k)

/-- Modelled from the spec: `check_data_length` (texture module, not under
src/). Spec §4.2: "each face is `width*height*channels_for(format)` elements";
§4.1: "its length must equal `width * height * channels_for(format)`;
mismatch fails with a `SizeMismatch` error".  `depth` generalizes to
3D/array textures exactly as the call sites use it (always `1` here). -/
def check_data_length (width height depth : Nat) (format : Format)
    (length : Nat) : Except CoreError Unit :=
  let expected := width * height * depth * format.channels
  if length = expected then Except.ok () else Except.error (.SizeMismatch expected length)

/-- Fuel-indexed floor base-2 logarithm (structural recursion, so that it
computes inside the kernel); agrees with `Nat.log2` whenever `n ≤ fuel`. -/
def floorLog2Aux : Nat → Nat → Nat
  | 0, _ => 0
  | fuel + 1, n => if n ≥ 2 then floorLog2Aux fuel (n / 2) + 1 else 0

/-- `⌊log2 n⌋` (0 at 0), computable by `rfl`/`decide`; proved equal to
`Nat.log2` below. -/
def floorLog2 (n : Nat) : Nat := floorLog2Aux n n

/-- Modelled from the spec: `calculate_number_of_mip_maps` (texture module,
not under src/). Spec §3: "mip-mapping is enabled only if a mip filter was
requested AND both base dimensions are powers of two; chain depth =
⌊log2(max(width,height))⌋ + 1 when enabled, else 1". -/
def calculate_number_of_mip_maps (mipMapFilter : Option Interpolation)
    (width height : Nat) : Nat :=
  if mipMapFilter.isSome && isPowTwo width && isPowTwo height then
    floorLog2 (max width height) + 1
  else
    1

/-- The six cube-map faces, in the fixed order used for face data
(right, left, top, bottom, front, back). -/
inductive CubeMapSide where
  | Right
  | Left
  | Top
  | Bottom
  | Front
  | Back
deriving DecidableEq, Repr

instance : Fintype CubeMapSide :=
  ⟨⟨{.Right, .Left, .Top, .Bottom, .Front, .Back}, by decide⟩, by intro x; cases x <;> decide⟩

/-- Modelled from the spec: `CubeMapSide::iter()` yields the faces in the
fixed order right, left, top, bottom, front, back (spec §4.2). -/
def CubeMapSide.iter : List CubeMapSide :=
  [.Right, .Left, .Top, .Bottom, .Front, .Back]

/-- Face index in the data layout: face `i` occupies the `i`-th slice,
matching `TEXTURE_CUBE_MAP_POSITIVE_X + i`. -/
def CubeMapSide.idx : CubeMapSide → Fin 6
  | .Right => 0
  | .Left => 1
  | .Top => 2
  | .Bottom => 3
  | .Front => 4
  | .Back => 5

/-- The capabilities of a Rust `T: TextureDataType` type parameter that the
embedded code consults: `T::bits_per_channel()` and whether
`T::internal_format(format)` succeeds for a given format. -/
structure TextureDataType where
  bitsPerChannel : Nat
  internalFormatOk : Format → Bool

/-- The `CPUTexture<T>` descriptor fields consumed by `TextureCubeMap::new`. -/
structure CPUTexture (α : Type) where
  width : Nat
  height : Nat
  format : Format
  min_filter : Interpolation
  mag_filter : Interpolation
  mip_map_filter : Option Interpolation
  wrap_s : Wrapping
  wrap_t : Wrapping
  wrap_r : Wrapping
  data : List α

/-- `TextureCubeMap<T>`: the Rust struct fields (width, height, format,
number_of_mip_maps, is_hdr) plus the GPU-side observable state they control:
the six faces' base-level pixel contents (`faces`, indexed in data order
right..back) and a counter of `generate_mipmap` invocations
(`mipGenerations`), which makes mip-chain regeneration observable. -/
structure TextureCubeMap (α : Type) where
  width : Nat
  height : Nat
  format : Format
  number_of_mip_maps : Nat
  is_hdr : Bool
  faces : Fin 6 → List α
  mipGenerations : Nat

namespace TextureCubeMap

/-- `TextureCubeMap::generate_mip_maps`: issues `generate_mipmap` only when
`self.number_of_mip_maps > 1`. -/
def generate_mip_maps (t : TextureCubeMap α) : TextureCubeMap α :=
  if t.number_of_mip_maps > 1 then
    { t with mipGenerations := t.mipGenerations + 1 }
  else
    t

/-- `TextureCubeMap::fill`: `offset = data.len() / 6`; checks the per-face
length with `check_data_length(width, height, 1, format, offset)` and on
failure returns the error with the receiver untouched (the Rust `?` early
return precedes every upload); on success uploads slice
`data[i*offset..(i+1)*offset]` to face `i` for `i = 0..6` and then calls
`generate_mip_maps`. -/
def fill (t : TextureCubeMap α) (data : List α) :
    TextureCubeMap α × Except CoreError Unit :=
  let offset := data.length / 6
  match check_data_length t.width t.height 1 t.format offset with
  | .error e => (t, .error e)
  | .ok _ =>
      let t' := { t with
        faces := fun i => (data.drop ((i : Nat) * offset)).take offset }
      (t'.generate_mip_maps, .ok ())

/-- `TextureCubeMap::new`: computes the mip-map count, allocates storage
(where `T::internal_format(cpu_texture.format)?` may fail), builds the
struct with `is_hdr = T::bits_per_channel() > 8`, and delegates to
`fill(&cpu_texture.data)?` — an error from `fill` propagates and the
partially built value is dropped, never returned. -/
def new (dt : TextureDataType) (cpu : CPUTexture α) :
    Except CoreError (TextureCubeMap α) :=
  let number_of_mip_maps :=
    calculate_number_of_mip_maps cpu.mip_map_filter cpu.width cpu.height
  if dt.internalFormatOk cpu.format then
    let texture : TextureCubeMap α :=
      { width := cpu.width
        height := cpu.height
        format := cpu.format
        number_of_mip_maps := number_of_mip_maps
        is_hdr := dt.bitsPerChannel > 8
        faces := fun _ => []
        mipGenerations := 0 }
    match texture.fill cpu.data with
    | (t', .ok _) => .ok t'
    | (_, .error e) => .error e
  else
    .error .InvalidFormat

/-- `TextureCubeMap::new_empty`: allocates storage with no initial content
(`T::internal_format(format)?` may fail) and calls `generate_mip_maps`. -/
def new_empty (dt : TextureDataType) (width height : Nat)
    (min_filter mag_filter : Interpolation)
    (mip_map_filter : Option Interpolation)
    (wrap_s wrap_t wrap_r : Wrapping) (format : Format) :
    Except CoreError (TextureCubeMap α) :=
  let number_of_mip_maps := calculate_number_of_mip_maps mip_map_filter width height
  if dt.internalFormatOk format then
    let tex : TextureCubeMap α :=
      { width := width
        height := height
        format := format
        number_of_mip_maps := number_of_mip_maps
        is_hdr := dt.bitsPerChannel > 8
        faces := fun _ => []
        mipGenerations := 0 }
    .ok tex.generate_mip_maps
  else
    .error .InvalidFormat

end TextureCubeMap

/-- Clear policy of a scoped write (values are irrelevant to the claims;
only its presence in the call is modelled). -/
structure ClearState where
  clearColor : Bool
  clearDepth : Bool

/-- The implicit GPU binding state a render-target write manipulates: the
currently bound draw framebuffer and a counter of mip-map regenerations
performed by write cleanup. -/
structure GpuState where
  boundDrawFramebuffer : Option Nat
  mipRegens : Nat
deriving DecidableEq, Repr

/-- Modelled from the spec: `RenderTargetCubeMap::write` /
`write_to_mip_level` (rendertarget module, not under src/). Spec §4.3/§4.4
5-step protocol: bind the framebuffer object and the given face/mip level as
color attachment, apply the clear state, invoke the callback with the
binding active, and on return — "success or propagated failure" — restore
the pre-call binding and regenerate the attached texture's mip-maps when its
chain has more than one level; the cleanup is unconditional. -/
def renderTargetCubeMapWrite (fboId : Nat) (textureMipLevels : Nat)
    (side : CubeMapSide) (mip_level : Nat) (clear_state : ClearState)
    (s : GpuState) (render : GpuState → GpuState × Except CoreError Unit) :
    GpuState × Except CoreError Unit :=
  let prior := s.boundDrawFramebuffer
  let bound := { s with boundDrawFramebuffer := some fboId }
  let afterRender := render bound
  let cleaned :=
    { afterRender.1 with
      boundDrawFramebuffer := prior
      mipRegens := afterRender.1.mipRegens + (if textureMipLevels > 1 then 1 else 0) }
  (cleaned, afterRender.2)

namespace TextureCubeMap

/-- `TextureCubeMap::write`: creates a color render target for the cube map
and delegates to `RenderTargetCubeMap::write(side, clear_state, render)`
(mip level 0). -/
def write (t : TextureCubeMap α) (fboId : Nat) (side : CubeMapSide)
    (clear_state : ClearState) (s : GpuState)
    (render : GpuState → GpuState × Except CoreError Unit) :
    GpuState × Except CoreError Unit :=
  renderTargetCubeMapWrite fboId t.number_of_mip_maps side 0 clear_state s render

/-- `TextureCubeMap::write_to_mip_level`: creates a color render target for
the cube map and delegates to
`RenderTargetCubeMap::write_to_mip_level(side, mip_level, clear_state, render)`. -/
def write_to_mip_level (t : TextureCubeMap α) (fboId : Nat)
    (side : CubeMapSide) (mip_level : Nat) (clear_state : ClearState)
    (s : GpuState) (render : GpuState → GpuState × Except CoreError Unit) :
    GpuState × Except CoreError Unit :=
  renderTargetCubeMapWrite fboId t.number_of_mip_maps side mip_level clear_state s render

end TextureCubeMap

/-- One operation of a client-visible cube-map usage sequence: a `fill`, or
a scoped face write at the base level or at an explicit mip level (the
write's effect on the face contents is the draw result `content`). -/
inductive CubeOp (α : Type) where
  | fillOp (data : List α)
  | writeOp (side : CubeMapSide) (content : List α)
  | writeToMipLevelOp (side : CubeMapSide) (mip_level : Nat) (content : List α)

/-- Effect of one operation on the texture object and its GPU contents:
`fill` as embedded above; a scoped write replaces the written face's
contents with the draw result and, per the write protocol, regenerates the
mip chain when it has more than one level.  Writes take `&self` in Rust, so
they cannot touch the struct fields. -/
def applyOp (t : TextureCubeMap α) : CubeOp α → TextureCubeMap α
  | .fillOp data => (t.fill data).1
  | .writeOp side content =>
      { t with
        faces := Function.update t.faces side.idx content
        mipGenerations := t.mipGenerations + (if t.number_of_mip_maps > 1 then 1 else 0) }
  | .writeToMipLevelOp side _ content =>
      { t with
        faces := Function.update t.faces side.idx content
        mipGenerations := t.mipGenerations + (if t.number_of_mip_maps > 1 then 1 else 0) }

/-- Run a sequence of operations, threading the texture state (a failed
`fill` leaves the state unchanged and the caller may keep going). -/
def runOps (t : TextureCubeMap α) (ops : List (CubeOp α)) : TextureCubeMap α :=
  ops.foldl applyOp t

/-- One face pass of `TextureCubeMap::new_from_equirectangular`: the face it
renders, the perspective projection parameters (`perspective(degrees(90.0),
viewport.aspect(), 0.1, 10.0)`, computed once and shared by all passes), and
the face bound as the color attachment of the render target for that pass. -/
structure EquirectPass where
  side : CubeMapSide
  fovDegrees : ℚ
  zNear : ℚ
  zFar : ℚ
  attachedSide : CubeMapSide
deriving DecidableEq, Repr

/-- The pass list issued by `new_from_equirectangular`: one
`program.apply(&render_target, side, ...)` per `side in CubeMapSide::iter()`,
all sharing the single 90°-fov projection; binding `side` as the render
target's color attachment is the §4.4 contract of the cube-map render
target's face-addressed write. -/
def new_from_equirectangular_passes : List EquirectPass :=
  CubeMapSide.iter.map (fun side =>
    { side := side
      fovDegrees := 90
      zNear := 1 / 10
      zFar := 10
      attachedSide := side })

/-- The destination texture allocated by `new_from_equirectangular`:
`new_empty(width/4, width/4, Linear, Linear, Some(Linear), ClampToEdge,
ClampToEdge, ClampToEdge, RGBA)`. -/
def new_from_equirectangular_target (dt : TextureDataType) (cpuWidth : Nat) :
    Except CoreError (TextureCubeMap α) :=
  TextureCubeMap.new_empty dt (cpuWidth / 4) (cpuWidth / 4)
    .Linear .Linear (some .Linear)
    .ClampToEdge .ClampToEdge .ClampToEdge .RGBA

/-- The fragment shader's `sample_spherical_map`, with the target language's
`atan` (two-argument) and `asin` abstracted as parameters:
`uv = vec2(atan(v.z, v.x), asin(v.y)); uv *= invAtan; uv += 0.5;
return vec2(uv.x, 1.0 - uv.y);` where `invAtan = vec2(0.1591, 0.3183)`. -/
def sample_spherical_map (atan2 : ℚ → ℚ → ℚ) (asin : ℚ → ℚ)
    (v : ℚ × ℚ × ℚ) : ℚ × ℚ :=
  let uv := (atan2 v.2.2 v.1, asin v.2.1)
  let uv := (uv.1 * (1591 / 10000), uv.2 * (3183 / 10000))
  let uv := (uv.1 + 1 / 2, uv.2 + 1 / 2)
  (uv.1, 1 - uv.2)

/-- Effect of a list of face passes on the cube's face contents: each pass
overwrites exactly the face it has bound as color attachment with the image
it renders (`render p`), which depends only on the pass (the source
equirectangular texture is read-only). -/
def applyPasses {ω : Type} (render : EquirectPass → ω)
    (init : CubeMapSide → ω) (passes : List EquirectPass) : CubeMapSide → ω :=
  passes.foldl (fun acc p => Function.update acc p.attachedSide (render p)) init

/-- `three_d::Error` as raised by `CameraControl` (the `CameraError` variant
with its message). -/
inductive CamError where
  | CameraError (message : String)
deriving DecidableEq, Repr

/-- 3-component vector over exact scalars. -/
abbrev Vec3 := ℚ × ℚ × ℚ

namespace Vec3

def add (a b : Vec3) : Vec3 := (a.1 + b.1, a.2.1 + b.2.1, a.2.2 + b.2.2)

def sub (a b : Vec3) : Vec3 := (a.1 - b.1, a.2.1 - b.2.1, a.2.2 - b.2.2)

def smul (k : ℚ) (a : Vec3) : Vec3 := (k * a.1, k * a.2.1, k * a.2.2)

def lengthSq (a : Vec3) : ℚ := a.1 * a.1 + a.2.1 * a.2.1 + a.2.2 * a.2.2

/-- `point.distance(position)`: Euclidean distance, with the square root
abstracted as a parameter (the Rust code computes it on `f32`). -/
def dist (sqrt : ℚ → ℚ) (a b : Vec3) : ℚ := sqrt (lengthSq (sub a b))

/-- `v.normalize()`: `v / |v|`, with the square root abstracted. -/
def normalize (sqrt : ℚ → ℚ) (v : Vec3) : Vec3 :=
  smul (1 / sqrt (lengthSq v)) v

end Vec3

/-- Camera projection variants consulted by `zoom_towards`. -/
inductive ProjectionType where
  | Orthographic (width height : ℚ)
  | Perspective (fovDegrees : ℚ)
deriving DecidableEq, Repr

/-- Modelled from the spec: the `Camera` interface the control layer drives
(the camera itself is an out-of-scope collaborator, §1): view state
(position, target, up), projection, and near/far planes. -/
structure Camera where
  position : Vec3
  target : Vec3
  up : Vec3
  projection : ProjectionType
  z_near : ℚ
  z_far : ℚ
deriving DecidableEq, Repr

/-- Modelled from the spec: `Camera::set_view` replaces the view state. -/
def Camera.set_view (c : Camera) (position target up : Vec3) : Camera :=
  { c with position := position, target := target, up := up }

/-- Modelled from the spec: `Camera::set_orthographic_projection(height,
z_near, z_far)` replaces the orthographic height and the depth planes,
keeping the width coupled to the unchanged aspect ratio. -/
def Camera.set_orthographic_projection (c : Camera) (height z_near z_far : ℚ) :
    Camera :=
  let width := match c.projection with
    | .Orthographic w h => if h = 0 then w else w * height / h
    | .Perspective _ => height
  { c with projection := .Orthographic width height, z_near := z_near, z_far := z_far }

/-- `CameraControl::zoom_towards(point, delta, minimum_distance,
maximum_distance)`: the two guard checks with their exact error messages and
early returns (the receiver is untouched on either error), then the move:
clamp `distance - delta` to `[minimum_distance, maximum_distance]`, place
the camera at `point - direction * new_distance` keeping the view direction
and up, and for an orthographic projection rescale its height by
`new_distance / distance`. -/
def zoom_towards (sqrt : ℚ → ℚ) (c : Camera) (point : Vec3)
    (delta minimum_distance maximum_distance : ℚ) :
    Camera × Except CamError Unit :=
  if minimum_distance ≤ 0 then
    (c, .error (.CameraError
      "Zoom towards cannot take as input a negative minimum distance."))
  else if maximum_distance < minimum_distance then
    (c, .error (.CameraError
      "Zoom towards cannot take as input a maximum distance which is smaller than the minimum distance."))
  else
    let position := c.position
    let distance := Vec3.dist sqrt point position
    let direction := Vec3.normalize sqrt (Vec3.sub point position)
    let target := c.target
    let up := c.up
    let new_distance := min (max (distance - delta) minimum_distance) maximum_distance
    let new_position := Vec3.sub point (Vec3.smul new_distance direction)
    let c1 := c.set_view new_position
      (Vec3.add new_position (Vec3.sub target position)) up
    match c1.projection with
    | .Orthographic _ height =>
        let h := new_distance * height / distance
        (c1.set_orthographic_projection h c1.z_near c1.z_far, .ok ())
    | _ => (c1, .ok ())

/-- RGBA color with exact components (the loader's `f32` 4-tuples). -/
abbrev Color4 := ℚ × ℚ × ℚ × ℚ

/-- `collada::document::LambertDiffuse`. -/
inductive LambertDiffuse where
  | Texture (sampler : String)
  | Color (c : Color4)

/-- The fields of a `Lambert` effect the loader reads. -/
structure LambertEffect where
  diffuse : LambertDiffuse
  emission : Color4

/-- `collada::document::MaterialEffect` restricted to what the loader
matches on: `Lambert(..)` or anything else. -/
inductive MaterialEffect where
  | Lambert (l : LambertEffect)
  | Other

/-- The loader's error type (image loading may fail). -/
inductive LoadError where
  | NotFound (path : String)
deriving DecidableEq, Repr

/-- The `CPUMaterial` fields `Loaded::dae` populates; the loaded color
texture is represented by the image it decoded. -/
structure CPUMaterial where
  name : String
  color : Option Color4
  color_texture : Option String

/-- The material-parsing loop of `Loaded::dae`: for each `(k, v)` in
`material_to_effect`, look `v` up in the effect library; for a Lambert
effect take the color from the emission (texture diffuse) or the diffuse
color, resolve the texture by stripping `-sampler` from the sampler name,
looking the id up in `images` and loading `parent.join(filename)` (a load
failure aborts the whole call, as the Rust `?` does), and push a
`CPUMaterial` whose `color` is the hard-coded `Some((0.5, 0.5, 0.5, 1.))` —
the computed `color` is not used. -/
def dae_materials (image : String → Except LoadError String)
    (parentDir : String) (effect_library : String → Option MaterialEffect)
    (images : String → Option String) :
    List (String × String) → Except LoadError (List CPUMaterial)
  | [] => .ok []
  | (k, v) :: rest =>
    match effect_library v with
    | some (.Lambert lambert) =>
        let colorTex : Color4 × Option String :=
          match lambert.diffuse with
          | .Texture texture => (lambert.emission, some texture)
          | .Color lambert_color => (lambert_color, none)
        let color := colorTex.1
        let textureRes : Except LoadError (Option String) :=
          match colorTex.2 with
          | some sampler =>
              let texture_id := sampler.replace "-sampler" ""
              match images texture_id with
              | some filename =>
                  match image (parentDir ++ "/" ++ filename) with
                  | .ok img => .ok (some img)
                  | .error e => .error e
              | none => .ok none
          | none => .ok none
        match textureRes with
        | .error e => .error e
        | .ok texture =>
            match dae_materials image parentDir effect_library images rest with
            | .error e => .error e
            | .ok ms =>
                .ok ({ name := k
                       color := some (1 / 2, 1 / 2, 1 / 2, 1)
                       color_texture := texture } :: ms)
    | _ => dae_materials image parentDir effect_library images rest

/-! ## Specification predicates and concrete fixtures -/

/-- Spec §3 mip-chain rule, as a predicate on a resulting chain depth:
depth = ⌊log2(max(w,h))⌋ + 1 when a mip filter is requested and both
dimensions are powers of two, and depth = 1 in every other case. -/
def MipChainDepthSpec (mipf : Option Interpolation) (w h depth : Nat) : Prop :=
  ((mipf.isSome = true ∧ (∃ i, w = 2 ^ i) ∧ (∃ j, h = 2 ^ j)) →
    depth = Nat.log2 (max w h) + 1) ∧
  ((mipf = none ∨ (¬ ∃ i, w = 2 ^ i) ∨ (¬ ∃ j, h = 2 ^ j)) → depth = 1)

/-- An 8-bit texture data type accepting every format (e.g. `u8`). -/
def dt8 : TextureDataType := { bitsPerChannel := 8, internalFormatOk := fun _ => true }

/-- A 2×2 RGBA cube map without mip-maps, faces initially empty. -/
def t2x2 : TextureCubeMap Nat :=
  { width := 2, height := 2, format := .RGBA, number_of_mip_maps := 1,
    is_hdr := false, faces := fun _ => [], mipGenerations := 0 }

/-- A 1×1 RGBA cube map without mip-maps, faces initially empty. -/
def t1x1 : TextureCubeMap Nat :=
  { width := 1, height := 1, format := .RGBA, number_of_mip_maps := 1,
    is_hdr := false, faces := fun _ => [], mipGenerations := 0 }

/-- A 4×4 single-channel cube map with a 3-level mip chain. -/
def t4x4m : TextureCubeMap Nat :=
  { width := 4, height := 4, format := .R, number_of_mip_maps := 3,
    is_hdr := false, faces := fun _ => [], mipGenerations := 0 }

/-- A 2×2 RGBA cpu texture with a 97-element buffer (one element more than
the 6 × 16 a cube map needs). -/
def cpu97 : CPUTexture Nat :=
  { width := 2, height := 2, format := .RGBA, min_filter := .Linear,
    mag_filter := .Linear, mip_map_filter := none, wrap_s := .ClampToEdge,
    wrap_t := .ClampToEdge, wrap_r := .ClampToEdge, data := List.replicate 97 0 }

/-- A 2×2 RGBA cpu texture with the exact 96-element buffer (6 × 2·2·4). -/
def cpu96 : CPUTexture Nat :=
  { width := 2, height := 2, format := .RGBA, min_filter := .Linear,
    mag_filter := .Linear, mip_map_filter := none, wrap_s := .ClampToEdge,
    wrap_t := .ClampToEdge, wrap_r := .ClampToEdge, data := List.replicate 96 0 }

/-- The cube map `TextureCubeMap::new(dt8, cpu96)` produces. -/
def c7tex : TextureCubeMap Nat :=
  { width := 2, height := 2, format := .RGBA, number_of_mip_maps := 1,
    is_hdr := false,
    faces := fun i =>
      ((List.replicate 96 0).drop ((i : Nat) * 16)).take 16,
    mipGenerations := 0 }

/-- The cube map `TextureCubeMap::new_empty(dt8, 4, 4, …, Some(Linear), …)`
produces: a 3-level mip chain and one mip regeneration at construction. -/
def c2tex : TextureCubeMap Nat :=
  { width := 4, height := 4, format := .RGBA, number_of_mip_maps := 3,
    is_hdr := false, faces := fun _ => [], mipGenerations := 1 }

/-- A perspective camera at the origin looking down +z. -/
def cam0 : Camera :=
  { position := (0, 0, 0), target := (0, 0, 1), up := (0, 1, 0),
    projection := .Perspective 60, z_near := 1 / 10, z_far := 10 }

/-- An effect library with one Lambert effect with a red diffuse color. -/
def el0 : String → Option MaterialEffect := fun _ =>
  some (.Lambert { diffuse := .Color (1, 0, 0, 1), emission := (0, 0, 0, 1) })

/-- The material `dae_materials` builds from `el0` for entry
`("mat", "fx")`. -/
def m0 : CPUMaterial :=
  { name := "mat", color := some (1 / 2, 1 / 2, 1 / 2, 1), color_texture := none }

/-! ## Helper lemmas -/

theorem floorLog2Aux_eq (fuel : Nat) :
    ∀ n, n ≤ fuel → floorLog2Aux fuel n = Nat.log2 n := by
  induction fuel with
  | zero =>
      intro n hn
      have hz : n = 0 := Nat.le_zero.mp hn
      subst hz
      unfold Nat.log2
      simp [floorLog2Aux]
  | succ fuel ih =>
      intro n hn
      by_cases h2 : n ≥ 2
      · have hdiv : n / 2 ≤ fuel := by
          have : n / 2 < n := Nat.div_lt_self (by omega) (by omega)
          omega
        rw [floorLog2Aux, if_pos h2, ih _ hdiv]
        conv_rhs => rw [Nat.log2]
        rw [if_pos h2]
      · rw [floorLog2Aux, if_neg h2]
        conv_rhs => rw [Nat.log2]
        rw [if_neg h2]

theorem floorLog2_eq_log2 (n : Nat) : floorLog2 n = Nat.log2 n :=
  floorLog2Aux_eq n n le_rfl

theorem isPowTwo_iff (n : Nat) : isPowTwo n = true ↔ ∃ k, n = 2 ^ k := by
  unfold isPowTwo
  simp only [List.any_eq_true, List.mem_range, beq_iff_eq]
  constructor
  · rintro ⟨k, _, hk⟩
    exact ⟨k, hk⟩
  · rintro ⟨k, hk⟩
    exact ⟨k, by have := Nat.lt_two_pow k; omega, hk⟩

theorem calculate_number_of_mip_maps_spec (mipf : Option Interpolation)
    (w h : Nat) : MipChainDepthSpec mipf w h (calculate_number_of_mip_maps mipf w h) := by
  constructor
  · rintro ⟨hs, hw, hh⟩
    rw [calculate_number_of_mip_maps, hs, (isPowTwo_iff w).mpr hw,
      (isPowTwo_iff h).mpr hh]
    simp [floorLog2_eq_log2]
  · intro hneg
    rw [calculate_number_of_mip_maps]
    rcases hneg with hnone | hw | hh
    · simp [hnone]
    · have : isPowTwo w = false := by
        cases hpw : isPowTwo w with
        | false => rfl
        | true => exact absurd ((isPowTwo_iff w).mp hpw) hw
      simp [this]
    · have : isPowTwo h = false := by
        cases hph : isPowTwo h with
        | false => rfl
        | true => exact absurd ((isPowTwo_iff h).mp hph) hh
      simp [this]

theorem generate_mip_maps_meta {α} (t : TextureCubeMap α) :
    (t.generate_mip_maps).width = t.width ∧
    (t.generate_mip_maps).height = t.height ∧
    (t.generate_mip_maps).format = t.format ∧
    (t.generate_mip_maps).number_of_mip_maps = t.number_of_mip_maps ∧
    (t.generate_mip_maps).is_hdr = t.is_hdr ∧
    (t.generate_mip_maps).faces = t.faces := by
  unfold TextureCubeMap.generate_mip_maps
  split <;> exact ⟨rfl, rfl, rfl, rfl, rfl, rfl⟩

theorem fill_eq {α} (t : TextureCubeMap α) (data : List α) :
    t.fill data =
      match check_data_length t.width t.height 1 t.format (data.length / 6) with
      | .error e => (t, .error e)
      | .ok _ =>
          (TextureCubeMap.generate_mip_maps
            { t with faces := fun i =>
                (data.drop ((i : Nat) * (data.length / 6))).take (data.length / 6) },
           .ok ()) := rfl

theorem fill_meta {α} (t : TextureCubeMap α) (data : List α) :
    (t.fill data).1.width = t.width ∧
    (t.fill data).1.height = t.height ∧
    (t.fill data).1.format = t.format ∧
    (t.fill data).1.number_of_mip_maps = t.number_of_mip_maps ∧
    (t.fill data).1.is_hdr = t.is_hdr := by
  rw [fill_eq]
  rcases hc : check_data_length t.width t.height 1 t.format (data.length / 6) with e | u
  · exact ⟨rfl, rfl, rfl, rfl, rfl⟩
  · have h := generate_mip_maps_meta
      { t with faces := fun i => (data.drop ((i : Nat) * (data.length / 6))).take (data.length / 6) }
    exact ⟨h.1, h.2.1, h.2.2.1, h.2.2.2.1, h.2.2.2.2.1⟩

theorem applyOp_meta {α} (t : TextureCubeMap α) (op : CubeOp α) :
    (applyOp t op).width = t.width ∧
    (applyOp t op).height = t.height ∧
    (applyOp t op).format = t.format ∧
    (applyOp t op).is_hdr = t.is_hdr := by
  cases op with
  | fillOp data =>
      have h := fill_meta t data
      exact ⟨h.1, h.2.1, h.2.2.1, h.2.2.2.2⟩
  | writeOp side content => exact ⟨rfl, rfl, rfl, rfl⟩
  | writeToMipLevelOp side mip content => exact ⟨rfl, rfl, rfl, rfl⟩

/-! ## Claims -/

/-- C1: the claim that `TextureCubeMap::fill` (and `new`) succeed only on a
data length of exactly `6 * width * height * channels(format)` is violated
by the code: `offset = data.len() / 6` floors, so a 97-element buffer for a
2×2 RGBA cube map (exact size 96) passes the length check and the call
succeeds, contradicting the function's own documentation. -/
theorem C1_fill_accepts_overlong_buffer :
    (97 : Nat) ≠ 6 * (2 * 2 * Format.channels .RGBA) ∧
    (t2x2.fill (List.replicate 97 0)).2 = Except.ok () ∧
    (∃ t, TextureCubeMap.new dt8 cpu97 = Except.ok t) :=
  ⟨by decide, rfl, ⟨_, rfl⟩⟩

/-- C3 (counterexample): the claim says every data slice whose length
violates the exact-size contract makes `fill` fail with `SizeMismatch`; a
27-element buffer for a 1×1 RGBA cube map (exact size 24) violates the
contract yet `fill` succeeds. -/
theorem C3_counterexample :
    (27 : Nat) ≠ 6 * (1 * 1 * Format.channels .RGBA) ∧
    (t1x1.fill (List.replicate 27 0)).2 = Except.ok () :=
  ⟨by decide, rfl⟩

/-- C3 (amended): whenever `fill`'s length check fails — i.e.
`⌊data.len/6⌋ ≠ width*height*channels(format)` — `fill` returns a
`SizeMismatch` error and the texture is exactly its prior state: no face
upload and no mip-map regeneration happened. -/
theorem C3_fill_failure_is_atomic {α} (t : TextureCubeMap α) (data : List α)
    (h : data.length / 6 ≠ t.width * t.height * 1 * t.format.channels) :
    t.fill data =
      (t, Except.error (CoreError.SizeMismatch
        (t.width * t.height * 1 * t.format.channels) (data.length / 6))) := by
  rw [fill_eq]
  unfold check_data_length
  have h' : data.length / 6 ≠ t.width * t.height * t.format.channels := by
    simpa using h
  simp [h']

/-- C3 witness: a 5-element buffer for the 1×1 RGBA cube map fails with
`SizeMismatch` and leaves the texture unchanged. -/
theorem C3_witness :
    t1x1.fill (List.replicate 5 0) =
      (t1x1, Except.error (CoreError.SizeMismatch 4 0)) :=
  C3_fill_failure_is_atomic t1x1 (List.replicate 5 0) (by decide)

/-- C5: after a successful `fill` the mip chain is regenerated exactly when
the texture's chain depth exceeds 1; at depth 1 no regeneration happens. -/
theorem C5_fill_mip_regeneration {α} (t : TextureCubeMap α) (data : List α)
    (t' : TextureCubeMap α) (h : t.fill data = (t', Except.ok ())) :
    (t.number_of_mip_maps > 1 → t'.mipGenerations = t.mipGenerations + 1) ∧
    (¬ t.number_of_mip_maps > 1 → t'.mipGenerations = t.mipGenerations) := by
  rw [fill_eq] at h
  rcases hc : check_data_length t.width t.height 1 t.format (data.length / 6) with e | u
  · rw [hc] at h
    exact absurd (congrArg Prod.snd h) (by simp)
  · rw [hc] at h
    have ht' := (congrArg Prod.fst h).symm
    simp only at ht'
    subst ht'
    constructor
    · intro hm
      simp [TextureCubeMap.generate_mip_maps, hm]
    · intro hm
      simp [TextureCubeMap.generate_mip_maps, hm]

/-- C5 witness: filling the 3-level 4×4 cube map with a full 96-element
buffer bumps the mip-generation count by one. -/
theorem C5_witness :
    (t4x4m.fill (List.replicate 96 0)).1.mipGenerations = t4x4m.mipGenerations + 1 :=
  (C5_fill_mip_regeneration t4x4m (List.replicate 96 0)
    (t4x4m.fill (List.replicate 96 0)).1 rfl).1 (by decide)

/-- C6: over any sequence of `fill` / `write` / `write_to_mip_level`
operations, the accessors width, height, format and is_hdr keep the values
fixed at construction. -/
theorem C6_accessors_immutable {α} (t : TextureCubeMap α) (ops : List (CubeOp α)) :
    (runOps t ops).width = t.width ∧
    (runOps t ops).height = t.height ∧
    (runOps t ops).format = t.format ∧
    (runOps t ops).is_hdr = t.is_hdr := by
  induction ops generalizing t with
  | nil => exact ⟨rfl, rfl, rfl, rfl⟩
  | cons op rest ih =>
      have hop := applyOp_meta t op
      have hrest := ih (applyOp t op)
      exact ⟨hrest.1.trans hop.1, hrest.2.1.trans hop.2.1,
        hrest.2.2.1.trans hop.2.2.1, hrest.2.2.2.trans hop.2.2.2⟩

/-- C2: for any texture built by `new_empty` or `new`, mip-mapping is
enabled only when a mip filter is requested and both base dimensions are
powers of two, and then the chain depth is `⌊log2(max(width,height))⌋ + 1`;
in every other case the chain depth is 1. -/
theorem C2_mip_chain_depth {α} (dt : TextureDataType) (w h : Nat)
    (minf magf : Interpolation) (mipf : Option Interpolation)
    (ws wt wr : Wrapping) (fmt : Format) (cpu : CPUTexture α) :
    (∀ t : TextureCubeMap α,
      TextureCubeMap.new_empty dt w h minf magf mipf ws wt wr fmt = .ok t →
        MipChainDepthSpec mipf w h t.number_of_mip_maps) ∧
    (∀ t : TextureCubeMap α,
      TextureCubeMap.new dt cpu = .ok t →
        MipChainDepthSpec cpu.mip_map_filter cpu.width cpu.height t.number_of_mip_maps) := by
  constructor
  · intro t ht
    unfold TextureCubeMap.new_empty at ht
    rcases hok : dt.internalFormatOk fmt with _ | _
    · rw [hok] at ht
      exact absurd ht (by simp)
    · rw [hok] at ht
      simp only [if_true] at ht
      have ht' := (Except.ok.injEq _ _).mp ht
      have hnum : t.number_of_mip_maps = calculate_number_of_mip_maps mipf w h := by
        rw [← ht']
        exact (generate_mip_maps_meta _).2.2.2.1
      rw [hnum]
      exact calculate_number_of_mip_maps_spec mipf w h
  · intro t ht
    unfold TextureCubeMap.new at ht
    rcases hok : dt.internalFormatOk cpu.format with _ | _
    · rw [hok] at ht
      exact absurd ht (by simp)
    · rw [hok] at ht
      simp only [if_true] at ht
      rcases hfill : TextureCubeMap.fill
          { width := cpu.width, height := cpu.height, format := cpu.format,
            number_of_mip_maps :=
              calculate_number_of_mip_maps cpu.mip_map_filter cpu.width cpu.height,
            is_hdr := decide (dt.bitsPerChannel > 8), faces := fun _ => [],
            mipGenerations := 0 } cpu.data with ⟨tf, r⟩
      rw [hfill] at ht
      cases r with
      | error e => exact absurd ht (by simp)
      | ok u =>
          simp only at ht
          have ht' := (Except.ok.injEq _ _).mp ht
          have hnum := (fill_meta
            { width := cpu.width, height := cpu.height, format := cpu.format,
              number_of_mip_maps :=
                calculate_number_of_mip_maps cpu.mip_map_filter cpu.width cpu.height,
              is_hdr := decide (dt.bitsPerChannel > 8), faces := fun _ => [],
              mipGenerations := 0 } cpu.data).2.2.2.1
          rw [hfill] at hnum
          simp only at hnum
          rw [← ht', hnum]
          exact calculate_number_of_mip_maps_spec cpu.mip_map_filter cpu.width cpu.height

/-- C2 witness: `new_empty` at 4×4 with a linear mip filter yields chain
depth `⌊log2 4⌋ + 1 = 3`. -/
theorem C2_witness :
    c2tex.number_of_mip_maps = Nat.log2 (max 4 4) + 1 ∧
    c2tex.number_of_mip_maps = 3 :=
  ⟨((C2_mip_chain_depth dt8 4 4 .Linear .Linear (some .Linear)
      .ClampToEdge .ClampToEdge .ClampToEdge .RGBA cpu96).1 c2tex rfl).1
      ⟨rfl, ⟨2, rfl⟩, ⟨2, rfl⟩⟩,
    rfl⟩

/-- C7: whenever `TextureCubeMap::new` returns a cube map, the initial data
passed the length check and every one of the six faces holds its complete
per-face slice — the caller never observes a partially uploaded cube map
(on any failure `new` returns only the error). -/
theorem C7_new_no_partial_object {α} (dt : TextureDataType)
    (cpu : CPUTexture α) (t : TextureCubeMap α)
    (h : TextureCubeMap.new dt cpu = .ok t) :
    cpu.data.length / 6 = cpu.width * cpu.height * 1 * cpu.format.channels ∧
    ∀ i : Fin 6,
      t.faces i =
        (cpu.data.drop ((i : Nat) * (cpu.data.length / 6))).take (cpu.data.length / 6) ∧
      (t.faces i).length = cpu.data.length / 6 := by
  unfold TextureCubeMap.new at h
  rcases hok : dt.internalFormatOk cpu.format with _ | _
  · rw [hok] at h
    exact absurd h (by simp)
  · rw [hok] at h
    simp only [if_true] at h
    rw [fill_eq] at h
    rcases hc : check_data_length cpu.width cpu.height 1 cpu.format
        (cpu.data.length / 6) with e | u
    · rw [hc] at h
      exact absurd h (by simp)
    · rw [hc] at h
      simp only at h
      have ht := (Except.ok.injEq _ _).mp h
      have hlen : cpu.data.length / 6 = cpu.width * cpu.height * 1 * cpu.format.channels := by
        unfold check_data_length at hc
        by_contra hne
        rw [if_neg hne] at hc
        cases hc
      refine ⟨hlen, fun i => ?_⟩
      have hfaces : t.faces = fun (i : Fin 6) =>
          (cpu.data.drop ((i : Nat) * (cpu.data.length / 6))).take (cpu.data.length / 6) := by
        rw [← ht]
        exact (generate_mip_maps_meta _).2.2.2.2.2
      refine ⟨by rw [hfaces], ?_⟩
      rw [hfaces]
      simp only [List.length_take, List.length_drop]
      have h5 : (i : Nat) * (cpu.data.length / 6) ≤ 5 * (cpu.data.length / 6) :=
        Nat.mul_le_mul_right _ (Nat.lt_succ_iff.mp i.isLt)
      have h6 : cpu.data.length / 6 * 6 ≤ cpu.data.length :=
        Nat.div_mul_le_self cpu.data.length 6
      omega

/-- C7 witness: a 96-element 2×2 RGBA buffer constructs a cube map whose
face 0 holds a full 16-element slice. -/
theorem C7_witness :
    TextureCubeMap.new dt8 cpu96 = .ok c7tex ∧
    (c7tex.faces 0).length = cpu96.data.length / 6 :=
  ⟨rfl, ((C7_new_no_partial_object dt8 cpu96 c7tex rfl).2 0).2⟩

/-- C4: every cube-map render-target write — `RenderTargetCubeMap::write` /
`write_to_mip_level` and the delegating `TextureCubeMap::write` /
`write_to_mip_level` — restores the framebuffer binding to its pre-call
state for every draw callback, whether the callback returns success or an
error: the cleanup is not conditioned on the callback's result. -/
theorem C4_binding_restored {α} (t : TextureCubeMap α)
    (fboId textureMipLevels : Nat) (side : CubeMapSide) (mip_level : Nat)
    (clear_state : ClearState) (s : GpuState)
    (render : GpuState → GpuState × Except CoreError Unit) :
    ((renderTargetCubeMapWrite fboId textureMipLevels side mip_level
        clear_state s render).1).boundDrawFramebuffer = s.boundDrawFramebuffer ∧
    ((t.write fboId side clear_state s render).1).boundDrawFramebuffer =
      s.boundDrawFramebuffer ∧
    ((t.write_to_mip_level fboId side mip_level clear_state s
        render).1).boundDrawFramebuffer = s.boundDrawFramebuffer :=
  ⟨rfl, rfl, rfl⟩

/-- C8: `new_from_equirectangular` issues exactly one render pass per cube
face, in the order right, left, top, bottom, front, back; every pass uses
the shared 90°-field-of-view perspective projection and binds its own face
as the color attachment; the shader samples the source through the
atan2/asin spherical mapping (uv is the affine rescaling of
`(atan2(z, x), asin(y))` by invAtan plus one half, with v flipped); and the
passes are order-insensitive: running any permutation of them produces the
same face contents, for every rendering function and initial contents. -/
theorem C8_equirect_passes {ω : Type} (render : EquirectPass → ω)
    (init : CubeMapSide → ω) (l : List EquirectPass)
    (hperm : l.Perm new_from_equirectangular_passes) :
    new_from_equirectangular_passes.length = 6 ∧
    new_from_equirectangular_passes.map (fun p => p.side) = CubeMapSide.iter ∧
    (∀ p ∈ new_from_equirectangular_passes,
      p.fovDegrees = 90 ∧ p.attachedSide = p.side) ∧
    (∀ (at2 : ℚ → ℚ → ℚ) (asn : ℚ → ℚ) (v : ℚ × ℚ × ℚ),
      sample_spherical_map at2 asn v =
        (at2 v.2.2 v.1 * (1591 / 10000) + 1 / 2,
         1 - (asn v.2.1 * (3183 / 10000) + 1 / 2))) ∧
    applyPasses render init l = applyPasses render init new_from_equirectangular_passes := by
  refine ⟨rfl, rfl, by decide, fun at2 asn v => rfl, ?_⟩
  have hnodup : (new_from_equirectangular_passes.map
      (fun p => p.attachedSide)).Nodup := by decide
  have hnodl : (l.map (fun p => p.attachedSide)).Nodup :=
    ((hperm.map (fun p => p.attachedSide)).nodup_iff).mpr hnodup
  unfold applyPasses
  refine hperm.foldl_eq' ?_ init
  intro x hx y hy z
  by_cases hxy : x.attachedSide = y.attachedSide
  · have hxeqy : x = y := List.inj_on_of_nodup_map hnodl hx hy hxy
    rw [hxeqy]
  · exact Function.update_comm hxy (render x) (render y) z

/-- C8 witness: a reversed pass order yields the same face contents as the
source order. -/
theorem C8_witness :
    new_from_equirectangular_passes.length = 6 ∧
    new_from_equirectangular_passes.map (fun p => p.side) = CubeMapSide.iter ∧
    (∀ p ∈ new_from_equirectangular_passes,
      p.fovDegrees = 90 ∧ p.attachedSide = p.side) ∧
    (∀ (at2 : ℚ → ℚ → ℚ) (asn : ℚ → ℚ) (v : ℚ × ℚ × ℚ),
      sample_spherical_map at2 asn v =
        (at2 v.2.2 v.1 * (1591 / 10000) + 1 / 2,
         1 - (asn v.2.1 * (3183 / 10000) + 1 / 2))) ∧
    applyPasses (fun p => p.side) (fun s => s)
        new_from_equirectangular_passes.reverse =
      applyPasses (fun p => p.side) (fun s => s) new_from_equirectangular_passes :=
  C8_equirect_passes (fun p => p.side) (fun s => s)
    new_from_equirectangular_passes.reverse
    (List.reverse_perm new_from_equirectangular_passes)

/-- C9: `zoom_towards` rejects a non-positive minimum distance (zero
included, with the error message that mentions only negative values) and a
maximum distance below the minimum, leaving the camera untouched in both
error cases; when both checks pass it returns success, having moved the
camera. -/
theorem C9_zoom_towards_guards (sqrt : ℚ → ℚ) (c : Camera) (point : Vec3)
    (delta minimum_distance maximum_distance : ℚ) :
    (minimum_distance ≤ 0 →
      zoom_towards sqrt c point delta minimum_distance maximum_distance =
        (c, .error (.CameraError
          "Zoom towards cannot take as input a negative minimum distance."))) ∧
    (0 < minimum_distance → maximum_distance < minimum_distance →
      zoom_towards sqrt c point delta minimum_distance maximum_distance =
        (c, .error (.CameraError
          "Zoom towards cannot take as input a maximum distance which is smaller than the minimum distance."))) ∧
    (0 < minimum_distance → minimum_distance ≤ maximum_distance →
      (zoom_towards sqrt c point delta minimum_distance maximum_distance).2 =
        .ok ()) := by
  refine ⟨?_, ?_, ?_⟩
  · intro hmin
    unfold zoom_towards
    rw [if_pos hmin]
  · intro hmin hmax
    unfold zoom_towards
    rw [if_neg (not_le.mpr hmin), if_pos hmax]
  · intro hmin hmax
    unfold zoom_towards
    rw [if_neg (not_le.mpr hmin), if_neg (not_lt.mpr hmax)]
    dsimp only
    split <;> rfl

/-- C9 witness: a minimum distance of exactly zero errors with the
"negative minimum distance" message and leaves the camera unchanged; with
positive bounds in order, the zoom succeeds. -/
theorem C9_witness :
    zoom_towards (fun q => q) cam0 (0, 0, 5) 1 0 10 =
      (cam0, .error (.CameraError
        "Zoom towards cannot take as input a negative minimum distance.")) ∧
    (zoom_towards (fun q => q) cam0 (0, 0, 5) 1 1 10).2 = .ok () :=
  ⟨(C9_zoom_towards_guards (fun q => q) cam0 (0, 0, 5) 1 0 10).1 (by norm_num),
   (C9_zoom_towards_guards (fun q => q) cam0 (0, 0, 5) 1 1 10).2.2
     (by norm_num) (by norm_num)⟩

/-- C10: every material produced by the `Loaded::dae` material loop has its
color field hard-coded to `Some((0.5, 0.5, 0.5, 1.0))`, whatever diffuse or
emission color the COLLADA effect declared. -/
theorem C10_dae_color_hardcoded (image : String → Except LoadError String)
    (parentDir : String) (effect_library : String → Option MaterialEffect)
    (images : String → Option String) (l : List (String × String))
    (ms : List CPUMaterial)
    (h : dae_materials image parentDir effect_library images l = .ok ms) :
    ∀ m ∈ ms, m.color = some (1 / 2, 1 / 2, 1 / 2, 1) := by
  induction l generalizing ms with
  | nil =>
      unfold dae_materials at h
      have : ms = [] := ((Except.ok.injEq _ _).mp h).symm
      subst this
      intro m hm
      cases hm
  | cons kv rest ih =>
      obtain ⟨k, v⟩ := kv
      unfold dae_materials at h
      rcases hel : effect_library v with _ | mef
      · rw [hel] at h
        exact ih ms h
      · cases mef with
        | Other =>
            rw [hel] at h
            exact ih ms h
        | Lambert lambert =>
            rw [hel] at h
            simp only at h
            rcases htex : (match
                (match lambert.diffuse with
                  | .Texture texture => ((lambert.emission, some texture) : Color4 × Option String)
                  | .Color lambert_color => (lambert_color, none)).2 with
                | some sampler =>
                    match images (sampler.replace "-sampler" "") with
                    | some filename =>
                        match image (parentDir ++ "/" ++ filename) with
                        | .ok img => (.ok (some img) : Except LoadError (Option String))
                        | .error e => .error e
                    | none => .ok none
                | none => (.ok none : Except LoadError (Option String))) with e | texture
            · rw [htex] at h
              cases h
            · rw [htex] at h
              rcases hrec : dae_materials image parentDir effect_library images rest
                  with e | ms'
              · rw [hrec] at h
                cases h
              · rw [hrec] at h
                simp only at h
                have hms := ((Except.ok.injEq _ _).mp h).symm
                subst hms
                intro m hm
                rcases List.mem_cons.mp hm with hm0 | hmrest
                · rw [hm0]
                · exact ih ms' hrec m hmrest

/-- C10 witness: one Lambert material with a red diffuse color still comes
out with the hard-coded mid-gray color. -/
theorem C10_witness :
    dae_materials (fun p => .error (.NotFound p)) "" el0 (fun _ => none)
        [("mat", "fx")] = .ok [m0] ∧
    m0.color = some (1 / 2, 1 / 2, 1 / 2, 1) :=
  ⟨rfl,
   C10_dae_color_hardcoded (fun p => .error (.NotFound p)) "" el0 (fun _ => none)
     [("mat", "fx")] [m0] rfl m0 (List.mem_singleton.mpr rfl)⟩

end ThreeD
